import Mathlib

/-!
# Verification of the AI-Translator turn-taking bridge

A shallow embedding of the repository's three source files:

* `src/App.tsx` — the `App` React component: mode switching
  (`handleModeChange`), language swap (`handleSwap`), recording lifecycle
  (`startRecording` / `stopRecording`), the audio-frame encoder inside
  `processor.onaudioprocess`, live transcript accumulation (`onmessage`),
  and finalization (`handleTranslation`).
* `src/services/geminiService.ts` — `translateText` and the base64
  `encode` / `decode` byte↔text utilities.
* `src/types.ts` — `TranslationMode`, `Language`.

React `useState` variables become fields of `AppState`; each event handler
becomes a pure state-transition function; the external Gemini services are
oracles collected in `Env`.  JS strings are Lean `String`s; byte values are
`Nat`s below 256.
-/

namespace AITranslator

/-- `TranslationMode` from `src/types.ts`. -/
inductive TranslationMode
  | SOLO
  | CONVERSATION
  | IMAGE_EDIT
deriving DecidableEq, Repr

/-- The two parties of the bridge; in `src/App.tsx` a speaker is the string
`'host' | 'guest'` stored in the single `activeSpeaker` state variable. -/
inductive Speaker
  | host
  | guest
deriving DecidableEq, Repr

/-- `Language` from `src/types.ts` (the optional `flag` URL is display-only
and omitted). -/
structure Language where
  code : String
  name : String
deriving DecidableEq, Repr

/-! ## String trimming

`String.prototype.trim` as used on transcripts (`transcriptRef.current.trim()`):
drop leading and trailing whitespace code points. -/

/-- Whitespace test for a single character. -/
def isWS (c : Char) : Bool := c.isWhitespace

/-- Trim a character list: drop leading whitespace, then trailing whitespace. -/
def trimChars (s : List Char) : List Char :=
  (((s.dropWhile isWS).reverse.dropWhile isWS)).reverse

/-- JS `s.trim()` on our string model. -/
def trimS (s : String) : String := String.mk (trimChars s.data)

/-! ## External services as oracles

`translateText` (success path) and the OpenCC `converter` are deterministic
request/response collaborators; the embedding abstracts them as functions. -/

/-- Oracles for the external collaborators of `App`:
`translate text fromName toName` is a successful `translateText` call and
`convert` is the OpenCC Traditional→Simplified `converter`. -/
structure Env where
  translate : String → String → String → String
  convert : String → String

/-- A record of one `translateText` invocation: `(text, from, to)`. -/
abbrev Call := String × String × String

/-! ## The `App` component state

One field per `useState` hook of `App`, plus `transcriptRef` for the
`useRef` shadow of the transcript used inside callbacks. -/

structure AppState where
  mode : TranslationMode
  inputLang : Language
  outputLang : Language
  transcript : String
  translation : String
  soloTranscript : String
  soloTranslation : String
  bridgeTranscript : String
  bridgeTranslation : String
  activeSpeaker : Option Speaker
  isProcessing : Bool
  isPlaying : Bool
  errorMessage : Option String
  transcriptRef : String
deriving DecidableEq, Repr

/-- `LANGUAGES[0]` and `LANGUAGES[1]` from `src/constants.ts`. -/
def langEN : Language := ⟨"en", "English"⟩

def langZH : Language := ⟨"zh", "Simplified Chinese"⟩

/-- The initial render of `App`: every string state starts empty, mode is
`SOLO`, languages are `LANGUAGES[0]`/`LANGUAGES[1]`. -/
def initialState : AppState :=
  { mode := .SOLO
    inputLang := langEN
    outputLang := langZH
    transcript := ""
    translation := ""
    soloTranscript := ""
    soloTranslation := ""
    bridgeTranscript := ""
    bridgeTranslation := ""
    activeSpeaker := none
    isProcessing := false
    isPlaying := false
    errorMessage := none
    transcriptRef := "" }

/-! ## Event handlers of `App` (src/App.tsx) -/

/-- `handleSwap`: exchange the languages and clear the live view. -/
def handleSwap (s : AppState) : AppState :=
  { s with
    inputLang := s.outputLang
    outputLang := s.inputLang
    transcript := ""
    transcriptRef := ""
    translation := "" }

/-- `handleModeChange(newMode)`: no-op on the current mode; otherwise save the
live transcript (`transcriptRef.current`) and translation into the outgoing
mode's slots, switch, and restore the incoming mode's stored slots.  The
restore reads the pre-handler closure values, which is faithful because the
slot restored belongs to `newMode ≠ mode` and was not just written. -/
def handleModeChange (newMode : TranslationMode) (s : AppState) : AppState :=
  if newMode = s.mode then s
  else
    let s1 :=
      if s.mode = .SOLO then
        { s with soloTranscript := s.transcriptRef, soloTranslation := s.translation }
      else if s.mode = .CONVERSATION then
        { s with bridgeTranscript := s.transcriptRef, bridgeTranslation := s.translation }
      else s
    let s2 := { s1 with mode := newMode }
    if newMode = .SOLO then
      { s2 with
        transcript := s.soloTranscript
        transcriptRef := s.soloTranscript
        translation := s.soloTranslation }
    else if newMode = .CONVERSATION then
      { s2 with
        transcript := s.bridgeTranscript
        transcriptRef := s.bridgeTranscript
        translation := s.bridgeTranslation }
    else s2

/-- The synchronous head of `startRecording(speaker)`: clear the live view and
the ref, clear the error, and mark the speaker active (this happens before any
await, so the speaker is "active" from `STARTING` on). -/
def startRecording (speaker : Speaker) (s : AppState) : AppState :=
  { s with
    transcript := ""
    transcriptRef := ""
    translation := ""
    errorMessage := none
    activeSpeaker := some speaker }

/-- The `catch` branch of `startRecording`: capture/connection failure sets an
error message and deactivates the speaker. -/
def startRecordingFailure (msg : String) (s : AppState) : AppState :=
  { s with errorMessage := some ("Could not start recording. (" ++ msg ++ ")"), activeSpeaker := none }

/-- The `onmessage` transcription callback while `speaker` is recording in
`recordLang`: convert Traditional→Simplified when the language code is `zh`,
append to `transcriptRef.current`, and republish as live preview — to the
transcript card for the host, to the translation card for the guest. -/
def onFragment (env : Env) (speaker : Speaker) (recordLang : Language) (part : String)
    (s : AppState) : AppState :=
  let newPart := if recordLang.code = "zh" then env.convert part else part
  let r := s.transcriptRef ++ newPart
  match speaker with
  | .host => { s with transcriptRef := r, transcript := r }
  | .guest => { s with transcriptRef := r, translation := r }

/-- `handleTranslation(text, speaker)` on the success path, also returning the
list of `translateText` calls it makes.  Empty text short-circuits to the
fixed "No voice input was detected." message in the speaker's display slot
without calling the service. -/
def handleTranslation (env : Env) (text : String) (speaker : Speaker) (s : AppState) :
    AppState × List Call :=
  if text = "" then
    match speaker with
    | .host => ({ s with translation := "No voice input was detected." }, [])
    | .guest => ({ s with transcript := "No voice input was detected." }, [])
  else
    match speaker with
    | .host =>
        let result := env.translate text s.inputLang.name s.outputLang.name
        ({ s with isProcessing := false, translation := result },
         [(text, s.inputLang.name, s.outputLang.name)])
    | .guest =>
        let result := env.translate text s.outputLang.name s.inputLang.name
        ({ s with isProcessing := false, translation := text, transcript := result },
         [(text, s.outputLang.name, s.inputLang.name)])

/-- `stopRecording` composed with its deferred finalize body: capture the
current speaker, deactivate, mark processing, tear down, then hand the trimmed
`transcriptRef` to `handleTranslation` for that speaker.  With no active
speaker it only clears the processing flag. -/
def stopRecording (env : Env) (s : AppState) : AppState × List Call :=
  match s.activeSpeaker with
  | none => ({ s with isProcessing := false }, [])
  | some spk =>
      let s1 := { s with activeSpeaker := none, isProcessing := true }
      handleTranslation env (trimS s1.transcriptRef) spk s1

/-- `handleTextSubmit`: manual text entry is finalized as a host turn; blank
(whitespace-only) text is ignored. -/
def handleTextSubmit (env : Env) (s : AppState) : AppState × List Call :=
  if trimS s.transcript = "" then (s, [])
  else handleTranslation env (trimS s.transcript) .host s

/-! ## `translateText` (src/services/geminiService.ts)

`response.text?.trim() || "Translation unavailable."`: the backend's text (or
`undefined`) is the only data the result depends on, so the function is modelled
over that optional response text. -/

/-- `translateText` result computation: trim the response text; an absent
response or one that trims to the empty string falls back to the fixed
`"Translation unavailable."` string. -/
def translateText (responseText : Option String) : String :=
  match responseText with
  | none => "Translation unavailable."
  | some t => if trimS t = "" then "Translation unavailable." else trimS t

/-! ## Base64 `encode` / `decode` (src/services/geminiService.ts)

`encode` builds a binary string whose code units are the bytes
(`String.fromCharCode`), then applies `btoa`; `decode` applies `atob` and
reads the code units back (`charCodeAt`), storing each into a `Uint8Array`
(i.e. mod 256).  `btoa`/`atob` are the platform's standard base64
codec over code units below 256, embedded here by their RFC 4648 definition. -/

/-- The base64 alphabet. -/
def b64chars : List Char :=
  "ABCDEFGHIJKLMNOPQRSTUVWXYZabcdefghijklmnopqrstuvwxyz0123456789+/".toList

/-- The base64 digit for a sextet value. -/
def b64char (n : Nat) : Char := b64chars.getD n '='

/-- The sextet value of a base64 digit. -/
def b64index (c : Char) : Nat := b64chars.indexOf c

/-- `btoa`: standard base64 over a sequence of code units (3 bytes → 4 digits,
with `=` padding for a 1- or 2-byte tail). -/
def btoa : List Nat → List Char
  | [] => []
  | [a] => [b64char (a / 4), b64char (a % 4 * 16), '=', '=']
  | [a, b] => [b64char (a / 4), b64char (a % 4 * 16 + b / 16), b64char (b % 16 * 4), '=']
  | a :: b :: c :: rest =>
      b64char (a / 4) :: b64char (a % 4 * 16 + b / 16) :: b64char (b % 16 * 4 + c / 64) ::
        b64char (c % 64) :: btoa rest

/-- `atob`: inverse base64, honouring `=` padding on the final quantum. -/
def atob : List Char → List Nat
  | c1 :: c2 :: c3 :: c4 :: rest =>
      if c3 = '=' then [b64index c1 * 4 + b64index c2 / 16]
      else if c4 = '=' then
        [b64index c1 * 4 + b64index c2 / 16, b64index c2 % 16 * 16 + b64index c3 / 4]
      else
        (b64index c1 * 4 + b64index c2 / 16) ::
          (b64index c2 % 16 * 16 + b64index c3 / 4) ::
            (b64index c3 % 4 * 64 + b64index c4) :: atob rest
  | _ => []

/-- `encode(bytes)`: each byte becomes one code unit of the binary string
(`String.fromCharCode` keeps values below 2^16), which `btoa` then encodes. -/
def encode (bytes : List Nat) : List Char :=
  btoa (bytes.map fun b => b % 65536)

/-- `decode(base64)`: `atob`, then each code unit is stored into a
`Uint8Array` entry (values are reduced mod 256 by the store). -/
def decode (s : List Char) : List Nat :=
  (atob s).map fun u => u % 256

/-! ## The frame encoder (`processor.onaudioprocess`, src/App.tsx)

Each float sample `inputData[i]` is an exact binary32 value, hence an exact
rational; `Math.max(-1, Math.min(1, x))` is exact, and the product of a
binary32 value by 32767 is exactly representable in the double arithmetic JS
uses (24-bit × 15-bit mantissas fit in 53 bits).  The assignment into an
`Int16Array` truncates toward zero (ECMAScript ToInt16).  The embedding
therefore works in ℚ with exact operations. -/

/-- `Math.max(-1, Math.min(1, x))`. -/
def clampSample (x : ℚ) : ℚ := max (-1) (min 1 x)

/-- ECMAScript number→integer conversion: truncation toward zero. -/
def truncQ (q : ℚ) : ℤ := if 0 ≤ q then ⌊q⌋ else ⌈q⌉

/-- `int16[i] = Math.max(-1, Math.min(1, inputData[i])) * 32767` as the signed
integer the `Int16Array` stores. -/
def sampleToInt16 (x : ℚ) : ℤ := truncQ (clampSample x * 32767)

/-- The two little-endian bytes of a 16-bit signed value as laid out in the
`Int16Array` buffer viewed through `Uint8Array`. -/
def int16BytesLE (v : ℤ) : List Nat :=
  let u := (v % 65536).toNat
  [u % 256, u / 256]

/-- Read a little-endian byte pair back as a 16-bit signed integer. -/
def decodeInt16LE : List Nat → ℤ
  | [b0, b1] =>
      let u : Nat := b0 + 256 * b1
      if u < 32768 then (u : ℤ) else (u : ℤ) - 65536
  | _ => 0

/-- The per-sample byte output of the frame encoder. -/
def encodeSample (x : ℚ) : List Nat := int16BytesLE (sampleToInt16 x)

/-- The byte stream of a whole frame (concatenated little-endian samples);
`pcmBlob.data` is `encode` applied to this stream. -/
def frameBytes (samples : List ℚ) : List Nat := samples.flatMap encodeSample

/-- `pcmBlob.data`, the transport-safe text for one audio frame. -/
def framePayload (samples : List ℚ) : List Char := encode (frameBytes samples)

/-! ## The coordinator's event system

Each user interaction or service callback of `App` is one transition.  The
guards are the `disabled` conditions of the buttons that fire the handlers and
the dispatch of `onClick={activeSpeaker ? stopRecording : () => startRecording(…)}`:
a start is only reachable with no active speaker and `isProcessing` false, a
guest start only from the CONVERSATION view. -/

/-- `disabled={isProcessing || (activeSpeaker === 'guest')}` on the buttons
that start (or stop) the HOST side, in both the SOLO and CONVERSATION views. -/
def hostStartDisabled (s : AppState) : Bool :=
  s.isProcessing || s.activeSpeaker == some .guest

/-- `disabled={isProcessing || (activeSpeaker === 'host')}` on the GUEST card's
mic button in the CONVERSATION view. -/
def guestStartDisabled (s : AppState) : Bool :=
  s.isProcessing || s.activeSpeaker == some .host

/-- A speaker's turn session is active (`STARTING` or `LIVE`) exactly when
`activeSpeaker` holds that speaker: the flag is set before the connection is
awaited and cleared on stop or on start failure. -/
def sessionActive (s : AppState) (spk : Speaker) : Prop :=
  s.activeSpeaker = some spk

/-- One step of the `App` component: a handler invocation permitted by the UI
guards, or a service callback of the active session. -/
inductive AppStep (env : Env) : AppState → AppState → Prop
  | swap (s : AppState) : AppStep env s (handleSwap s)
  | modeChange (s : AppState) (m : TranslationMode) : AppStep env s (handleModeChange m s)
  | hostStart (s : AppState) :
      s.activeSpeaker = none → s.isProcessing = false →
      AppStep env s (startRecording .host s)
  | guestStart (s : AppState) :
      s.mode = .CONVERSATION → s.activeSpeaker = none → s.isProcessing = false →
      AppStep env s (startRecording .guest s)
  | startFail (s : AppState) (msg : String) (spk : Speaker) :
      s.activeSpeaker = some spk →
      AppStep env s (startRecordingFailure msg s)
  | fragment (s : AppState) (spk : Speaker) (lang : Language) (part : String) :
      s.activeSpeaker = some spk →
      AppStep env s (onFragment env spk lang part s)
  | recognitionError (s : AppState) (spk : Speaker) :
      s.activeSpeaker = some spk →
      AppStep env s { s with errorMessage := some "Recognition interrupted. Please check connection." }
  | stop (s : AppState) :
      s.isProcessing = false →
      AppStep env s (stopRecording env s).1
  | textSubmit (s : AppState) : AppStep env s (handleTextSubmit env s).1
  | edit (s : AppState) (val : String) :
      AppStep env s { s with transcript := val, transcriptRef := val }
  | selectInput (s : AppState) (l : Language) : AppStep env s { s with inputLang := l }
  | selectOutput (s : AppState) (l : Language) : AppStep env s { s with outputLang := l }
  | playStart (s : AppState) :
      s.isPlaying = false → AppStep env s { s with isPlaying := true }
  | playEnd (s : AppState) : AppStep env s { s with isPlaying := false }

/-- The coordinator's reachable states: everything the event system can
produce from the initial render. -/
def Reachable (env : Env) (s : AppState) : Prop :=
  Relation.ReflTransGen (AppStep env) initialState s

/-- A concrete environment for witnesses: translation echoes its input and
script conversion is the identity. -/
def env0 : Env := ⟨fun t _ _ => t, fun t => t⟩

/-! ## The stop-phase schedule (src/App.tsx `stopRecording`)

After the synchronous teardown calls (`processor.disconnect()`,
`audioContext.close()`, track `stop()`s, `session.close()`), `stopRecording`
arms a fixed `setTimeout(…, 100)` whose callback takes the final read
`transcriptRef.current.trim()`.  A transcription fragment still in flight is a
separately queued callback; `session.close()` gives no completion signal for
it, so the event loop may run the two pending callbacks in either order.  The
states and events below model exactly that window. -/

/-- The mutable data visible during the stop window: the live accumulator and
the final text once the delayed read has taken it. -/
structure StopState where
  transcriptRef : String
  finalText : Option String
deriving DecidableEq, Repr

/-- The two callbacks that can still fire after the synchronous teardown:
a late `onmessage` fragment, and the 100 ms timer running the final read. -/
inductive StopEvent
  | fragmentArrives (t : String)
  | delayElapses

/-- Effect of one pending callback: a fragment appends to
`transcriptRef.current`; the timer callback reads `transcriptRef.current.trim()`
as the turn's final text. -/
def stopStep (s : StopState) : StopEvent → StopState
  | .fragmentArrives t => { s with transcriptRef := s.transcriptRef ++ t }
  | .delayElapses => { s with finalText := some (trimS s.transcriptRef) }

/-- Run a schedule of pending callbacks. -/
def runStop (s : StopState) (evs : List StopEvent) : StopState :=
  evs.foldl stopStep s

/-! ## Helper lemmas -/

theorem trimChars_eq_rdrop (s : List Char) :
    trimChars s = (s.dropWhile isWS).rdropWhile isWS := rfl

/-- Trimming is idempotent: the trimmed list has no leading and no trailing
whitespace left to drop. -/
theorem trimChars_idem (s : List Char) : trimChars (trimChars s) = trimChars s := by
  rw [trimChars_eq_rdrop, trimChars_eq_rdrop]
  have hpre : ((s.dropWhile isWS).rdropWhile isWS) <+: s.dropWhile isWS :=
    List.rdropWhile_prefix _ _
  have hdrop : ((s.dropWhile isWS).rdropWhile isWS).dropWhile isWS
      = (s.dropWhile isWS).rdropWhile isWS := by
    rw [List.dropWhile_eq_self_iff]
    intro hl
    have hlt : 0 < (s.dropWhile isWS).length := lt_of_lt_of_le hl hpre.length_le
    have hget : ((s.dropWhile isWS).rdropWhile isWS).get ⟨0, hl⟩
        = (s.dropWhile isWS).get ⟨0, hlt⟩ := by
      simp [List.get_eq_getElem, hpre.getElem]
    rw [hget]
    exact List.dropWhile_get_zero_not isWS s hlt
  rw [hdrop, List.rdropWhile_idempotent]

/-- `trimS` is idempotent. -/
theorem trimS_idem (s : String) : trimS (trimS s) = trimS s := by
  unfold trimS
  exact congrArg String.mk (trimChars_idem s.data)

/-- The base64 digit map and its table lookup are mutually inverse on
sextets. -/
theorem b64index_b64char : ∀ v : Nat, v < 64 → b64index (b64char v) = v := by decide

/-- No base64 digit is the padding character. -/
theorem b64char_ne_pad : ∀ v : Nat, v < 64 → b64char v ≠ '=' := by decide

/-- `atob` inverts `btoa` on code-unit sequences of bytes. -/
theorem atob_btoa : ∀ bs : List Nat, (∀ x ∈ bs, x < 256) → atob (btoa bs) = bs
  | [], _ => rfl
  | [a], h => by
      have ha : a < 256 := h a (by simp)
      simp only [btoa, atob, if_pos]
      rw [b64index_b64char _ (by omega), b64index_b64char _ (by omega)]
      congr 1
      omega
  | [a, b], h => by
      have ha : a < 256 := h a (by simp)
      have hb : b < 256 := h b (by simp)
      simp only [btoa, atob]
      rw [if_neg (b64char_ne_pad _ (by omega)), if_pos trivial]
      rw [b64index_b64char _ (by omega), b64index_b64char _ (by omega),
        b64index_b64char _ (by omega)]
      congr 1
      · omega
      · congr 1
        omega
  | a :: b :: c :: rest, h => by
      have ha : a < 256 := h a (by simp)
      have hb : b < 256 := h b (by simp)
      have hc : c < 256 := h c (by simp)
      have ih := atob_btoa rest (fun x hx => h x (by simp [hx]))
      simp only [btoa, atob]
      rw [if_neg (b64char_ne_pad _ (by omega)), if_neg (b64char_ne_pad _ (by omega))]
      rw [b64index_b64char _ (by omega), b64index_b64char _ (by omega),
        b64index_b64char _ (by omega), b64index_b64char _ (by omega)]
      rw [ih]
      congr 1
      · omega
      · congr 1
        · omega
        · congr 1
          omega

/-- Reducing every entry of a list of small naturals modulo a larger bound
changes nothing. -/
theorem map_mod_eq_self (k : Nat) :
    ∀ l : List Nat, (∀ x ∈ l, x < k) → (l.map fun b => b % k) = l
  | [], _ => rfl
  | a :: t, h => by
      have ha : a < k := h a (by simp)
      have ih := map_mod_eq_self k t (fun x hx => h x (by simp [hx]))
      simp [List.map_cons, Nat.mod_eq_of_lt ha, ih]

/-- The clamped sample lies in `[-1, 1]`. -/
theorem clampSample_mem (x : ℚ) : -1 ≤ clampSample x ∧ clampSample x ≤ 1 := by
  constructor
  · exact le_max_left _ _
  · exact max_le (by norm_num) (min_le_left _ _)

/-- The stored 16-bit value never leaves `[-32767, 32767]`: clamping before
scaling rules out wraparound in the `Int16Array` store. -/
theorem sampleToInt16_bounds (x : ℚ) :
    -32767 ≤ sampleToInt16 x ∧ sampleToInt16 x ≤ 32767 := by
  obtain ⟨h1, h2⟩ := clampSample_mem x
  have hq1 : (-32767 : ℚ) ≤ clampSample x * 32767 := by nlinarith
  have hq2 : clampSample x * 32767 ≤ 32767 := by nlinarith
  unfold sampleToInt16 truncQ
  split
  · constructor
    · have : (0 : ℤ) ≤ ⌊clampSample x * 32767⌋ := Int.floor_nonneg.mpr (by assumption)
      omega
    · have : ⌊clampSample x * 32767⌋ ≤ ⌊(32767 : ℚ)⌋ := Int.floor_le_floor hq2
      simpa using this
  · rename_i hneg
    constructor
    · have h3 : (((-32767 : ℤ) : ℚ)) ≤ clampSample x * 32767 := by push_cast; exact hq1
      have h4 := Int.ceil_le_ceil h3
      rwa [Int.ceil_intCast] at h4
    · have h5 : clampSample x * 32767 ≤ ((0 : ℤ) : ℚ) := by
        push_cast
        exact le_of_not_le hneg
      have := Int.ceil_le.mpr h5
      omega

/-- Inputs at or above full scale saturate at `32767`. -/
theorem sampleToInt16_sat_hi (x : ℚ) (h : 1 ≤ x) : sampleToInt16 x = 32767 := by
  have hc : clampSample x = 1 := by
    unfold clampSample
    rw [min_eq_left h, max_eq_right (by norm_num : (-1 : ℚ) ≤ 1)]
  unfold sampleToInt16 truncQ
  rw [hc]
  norm_num

/-- Inputs at or below negative full scale saturate at `-32767`. -/
theorem sampleToInt16_sat_lo (x : ℚ) (h : x ≤ -1) : sampleToInt16 x = -32767 := by
  have hc : clampSample x = -1 := by
    unfold clampSample
    rw [min_eq_right (by linarith : x ≤ 1), max_eq_left h]
  unfold sampleToInt16 truncQ
  rw [hc]
  norm_num
  rw [show ((-32767 : ℚ)) = (((-32767 : ℤ)) : ℚ) by norm_num, Int.ceil_intCast]

/-- In-range samples are not altered by the clamp. -/
theorem sampleToInt16_id (x : ℚ) (h1 : -1 ≤ x) (h2 : x ≤ 1) :
    sampleToInt16 x = truncQ (x * 32767) := by
  have hc : clampSample x = x := by
    unfold clampSample
    rw [min_eq_right h2, max_eq_right h1]
  unfold sampleToInt16
  rw [hc]

/-- The little-endian byte pair stores the signed value faithfully. -/
theorem decode_encode_sample (x : ℚ) :
    decodeInt16LE (encodeSample x) = sampleToInt16 x := by
  obtain ⟨h1, h2⟩ := sampleToInt16_bounds x
  unfold encodeSample int16BytesLE decodeInt16LE
  simp only []
  split <;> omega

/-- Leaving `SOLO`: the live transcript (`transcriptRef.current`) and
translation are saved into the SOLO slots and the CONVERSATION slots are
loaded into the live view. -/
theorem handleModeChange_from_solo (s : AppState) (hs : s.mode = .SOLO) :
    handleModeChange .CONVERSATION s =
      { s with
        soloTranscript := s.transcriptRef
        soloTranslation := s.translation
        mode := .CONVERSATION
        transcript := s.bridgeTranscript
        transcriptRef := s.bridgeTranscript
        translation := s.bridgeTranslation } := by
  unfold handleModeChange
  rw [hs]
  rfl

/-- Leaving `CONVERSATION`: the live content is saved into the bridge slots
and the SOLO slots are loaded into the live view. -/
theorem handleModeChange_from_conv (s : AppState) (hs : s.mode = .CONVERSATION) :
    handleModeChange .SOLO s =
      { s with
        bridgeTranscript := s.transcriptRef
        bridgeTranslation := s.translation
        mode := .SOLO
        transcript := s.soloTranscript
        transcriptRef := s.soloTranscript
        translation := s.soloTranslation } := by
  unfold handleModeChange
  rw [hs]
  rfl

/-! ## Claim theorems -/

/-- C1: at every reachable state of the coordinator at most one speaker
(HOST or GUEST) has an active (`STARTING`/`LIVE`) turn session — the
component keeps a single `activeSpeaker` cell, so two simultaneously active
sessions would have to agree — and while one speaker's session is active the
mic control that would start the other speaker's session is rendered
disabled. -/
theorem single_active_session (env : Env) (s : AppState) (hs : Reachable env s) :
    (∀ a b : Speaker, sessionActive s a → sessionActive s b → a = b) ∧
    (sessionActive s .host → guestStartDisabled s = true) ∧
    (sessionActive s .guest → hostStartDisabled s = true) := by
  refine ⟨fun a b ha hb => ?_, fun h => ?_, fun h => ?_⟩
  · unfold sessionActive at ha hb
    rw [ha] at hb
    exact Option.some_injective _ hb
  · unfold sessionActive at h
    simp [guestStartDisabled, h]
  · unfold sessionActive at h
    simp [hostStartDisabled, h]

/-- Witness for C1 at the reachable state in which the host has just started
a turn: the guest's start control is disabled there. -/
theorem single_active_session_witness :
    guestStartDisabled (startRecording .host initialState) = true :=
  (single_active_session env0 (startRecording .host initialState)
      (Relation.ReflTransGen.single (AppStep.hostStart initialState rfl rfl))).2.1 rfl

/-- C2: finalizing a GUEST turn whose trimmed text `T` is non-empty publishes
the original `T` as the translation view and `translate(T, target→source)` as
the transcript view — the display slots swap relative to a HOST turn — with
exactly that one service call. -/
theorem guest_finalize_swaps_slots (env : Env) (s : AppState) (T : String)
    (hspk : s.activeSpeaker = some .guest)
    (hT : trimS s.transcriptRef = T) (hne : T ≠ "") :
    (stopRecording env s).1.translation = T ∧
    (stopRecording env s).1.transcript = env.translate T s.outputLang.name s.inputLang.name ∧
    (stopRecording env s).2 = [(T, s.outputLang.name, s.inputLang.name)] := by
  unfold stopRecording
  rw [hspk]
  simp only [handleTranslation, hT]
  rw [if_neg hne]
  simp

/-- Witness for C2: a concrete guest finalize with text `"hola"`. -/
theorem guest_finalize_swaps_slots_witness :
    (stopRecording env0 { initialState with
        activeSpeaker := some .guest, transcriptRef := " hola " }).1.translation = "hola" ∧
    (stopRecording env0 { initialState with
        activeSpeaker := some .guest, transcriptRef := " hola " }).1.transcript
      = env0.translate "hola" "Simplified Chinese" "English" ∧
    (stopRecording env0 { initialState with
        activeSpeaker := some .guest, transcriptRef := " hola " }).2
      = [("hola", "Simplified Chinese", "English")] :=
  guest_finalize_swaps_slots env0
    { initialState with activeSpeaker := some .guest, transcriptRef := " hola " }
    "hola" rfl (by decide) (by decide)

/-- C3: finalizing a HOST turn whose trimmed text `T` is non-empty publishes
`translate(T, source→target)` as the translation view and leaves the
transcript view (which holds `T`) unchanged, with exactly that one service
call. -/
theorem host_finalize_translates (env : Env) (s : AppState) (T : String)
    (hspk : s.activeSpeaker = some .host)
    (hT : trimS s.transcriptRef = T) (hne : T ≠ "") (hview : s.transcript = T) :
    (stopRecording env s).1.translation = env.translate T s.inputLang.name s.outputLang.name ∧
    (stopRecording env s).1.transcript = T ∧
    (stopRecording env s).2 = [(T, s.inputLang.name, s.outputLang.name)] := by
  unfold stopRecording
  rw [hspk]
  simp only [handleTranslation, hT]
  rw [if_neg hne]
  simp [hview]

/-- Witness for C3: a concrete host finalize with text `"hello"`. -/
theorem host_finalize_translates_witness :
    (stopRecording env0 { initialState with
        activeSpeaker := some .host, transcript := "hello", transcriptRef := "hello" }).1.translation
      = env0.translate "hello" "English" "Simplified Chinese" ∧
    (stopRecording env0 { initialState with
        activeSpeaker := some .host, transcript := "hello", transcriptRef := "hello" }).1.transcript
      = "hello" ∧
    (stopRecording env0 { initialState with
        activeSpeaker := some .host, transcript := "hello", transcriptRef := "hello" }).2
      = [("hello", "English", "Simplified Chinese")] :=
  host_finalize_translates env0
    { initialState with activeSpeaker := some .host, transcript := "hello", transcriptRef := "hello" }
    "hello" rfl (by decide) (by decide) rfl

/-- C4: finalizing with empty (whitespace-only) accumulated text makes no
`translateText` call and puts the fixed "No voice input was detected."
message in the speaker's display slot (translation view for HOST, transcript
view for GUEST). -/
theorem empty_finalize_no_call (env : Env) (s : AppState) (spk : Speaker)
    (hspk : s.activeSpeaker = some spk)
    (hT : trimS s.transcriptRef = "") :
    (stopRecording env s).2 = [] ∧
    (spk = .host → (stopRecording env s).1.translation = "No voice input was detected.") ∧
    (spk = .guest → (stopRecording env s).1.transcript = "No voice input was detected.") := by
  unfold stopRecording
  rw [hspk]
  simp only [handleTranslation, hT]
  cases spk <;> simp

/-- Witness for C4: stopping a host turn that accumulated only whitespace. -/
theorem empty_finalize_no_call_witness :
    (stopRecording env0 { initialState with
        activeSpeaker := some .host, transcriptRef := "   " }).2 = [] ∧
    (stopRecording env0 { initialState with
        activeSpeaker := some .host, transcriptRef := "   " }).1.translation
      = "No voice input was detected." :=
  ⟨(empty_finalize_no_call env0
      { initialState with activeSpeaker := some .host, transcriptRef := "   " }
      .host rfl (by decide)).1,
   (empty_finalize_no_call env0
      { initialState with activeSpeaker := some .host, transcriptRef := "   " }
      .host rfl (by decide)).2.1 rfl⟩

/-- C5: for every sample `x` (also out-of-range ones) the frame encoder
stores the 16-bit signed integer obtained by clamping `x` to `[-1,1]`,
multiplying by 32767 and truncating toward zero, packed little-endian.  The
value always lies in `[-32767, 32767]` and out-of-range inputs saturate at
`±32767` — they are clamped, never wrapped — and the little-endian byte pair
decodes back to exactly that integer.  (`sampleToInt16` and `encodeSample`
are functions of the sample alone, so the encoder is deterministic.) -/
theorem frameEncoder_clamps (x : ℚ) :
    sampleToInt16 x = truncQ (clampSample x * 32767) ∧
    (-32767 ≤ sampleToInt16 x ∧ sampleToInt16 x ≤ 32767) ∧
    (1 ≤ x → sampleToInt16 x = 32767) ∧
    (x ≤ -1 → sampleToInt16 x = -32767) ∧
    (-1 ≤ x → x ≤ 1 → sampleToInt16 x = truncQ (x * 32767)) ∧
    encodeSample x = int16BytesLE (sampleToInt16 x) ∧
    decodeInt16LE (encodeSample x) = sampleToInt16 x :=
  ⟨rfl, sampleToInt16_bounds x, sampleToInt16_sat_hi x, sampleToInt16_sat_lo x,
    sampleToInt16_id x, rfl, decode_encode_sample x⟩

/-- Witness for C5: the out-of-range samples `2` and `-2` saturate instead of
wrapping, and the in-range sample `1/2` encodes to `⌊16383.5⌋ = 16383`. -/
theorem frameEncoder_clamps_witness :
    sampleToInt16 2 = 32767 ∧ sampleToInt16 (-2) = -32767 ∧
    decodeInt16LE (encodeSample 2) = sampleToInt16 2 :=
  ⟨(frameEncoder_clamps 2).2.2.1 (by norm_num),
   (frameEncoder_clamps (-2)).2.2.2.1 (by norm_num),
   (frameEncoder_clamps 2).2.2.2.2.2.2⟩

/-- C6: switching SOLO→CONVERSATION saves SOLO's live transcript/translation
into the SOLO slots and restores the CONVERSATION slots; after arbitrary
edits `f` in CONVERSATION (anything that does not write the SOLO slots or the
mode), switching back saves CONVERSATION's live content into the bridge slots
and restores SOLO's transcript and translation exactly as they were left. -/
theorem mode_roundtrip (s : AppState) (f : AppState → AppState)
    (hmode : s.mode = .SOLO)
    (hsync : s.transcript = s.transcriptRef)
    (hf1 : (f (handleModeChange .CONVERSATION s)).soloTranscript
        = (handleModeChange .CONVERSATION s).soloTranscript)
    (hf2 : (f (handleModeChange .CONVERSATION s)).soloTranslation
        = (handleModeChange .CONVERSATION s).soloTranslation)
    (hf3 : (f (handleModeChange .CONVERSATION s)).mode
        = (handleModeChange .CONVERSATION s).mode) :
    (handleModeChange .CONVERSATION s).soloTranscript = s.transcriptRef ∧
    (handleModeChange .CONVERSATION s).soloTranslation = s.translation ∧
    (handleModeChange .CONVERSATION s).transcript = s.bridgeTranscript ∧
    (handleModeChange .CONVERSATION s).transcriptRef = s.bridgeTranscript ∧
    (handleModeChange .CONVERSATION s).translation = s.bridgeTranslation ∧
    (handleModeChange .CONVERSATION s).mode = .CONVERSATION ∧
    (handleModeChange .SOLO (f (handleModeChange .CONVERSATION s))).bridgeTranscript
        = (f (handleModeChange .CONVERSATION s)).transcriptRef ∧
    (handleModeChange .SOLO (f (handleModeChange .CONVERSATION s))).bridgeTranslation
        = (f (handleModeChange .CONVERSATION s)).translation ∧
    (handleModeChange .SOLO (f (handleModeChange .CONVERSATION s))).transcript
        = s.transcript ∧
    (handleModeChange .SOLO (f (handleModeChange .CONVERSATION s))).transcriptRef
        = s.transcriptRef ∧
    (handleModeChange .SOLO (f (handleModeChange .CONVERSATION s))).translation
        = s.translation ∧
    (handleModeChange .SOLO (f (handleModeChange .CONVERSATION s))).mode = .SOLO := by
  have h1 := handleModeChange_from_solo s hmode
  have hm1 : (handleModeChange .CONVERSATION s).mode = .CONVERSATION := by rw [h1]
  have h2 := handleModeChange_from_conv (f (handleModeChange .CONVERSATION s))
    (by rw [hf3, hm1])
  refine ⟨by rw [h1], by rw [h1], by rw [h1], by rw [h1], by rw [h1], hm1,
    by rw [h2], by rw [h2], ?_, ?_, ?_, by rw [h2]⟩
  · rw [h2]
    show (f (handleModeChange .CONVERSATION s)).soloTranscript = s.transcript
    rw [hf1, h1, hsync]
  · rw [h2]
    show (f (handleModeChange .CONVERSATION s)).soloTranscript = s.transcriptRef
    rw [hf1, h1]
  · rw [h2]
    show (f (handleModeChange .CONVERSATION s)).soloTranslation = s.translation
    rw [hf2, h1]

/-- A concrete SOLO state for the C6 witness. -/
def sSolo : AppState :=
  { initialState with
    transcript := "left text"
    transcriptRef := "left text"
    translation := "left translation"
    bridgeTranscript := "bridge t"
    bridgeTranslation := "bridge tl" }

/-- A concrete in-between edit for the C6 witness. -/
def editF : AppState → AppState :=
  fun t => { t with transcript := "edited", transcriptRef := "edited", translation := "edited tl" }

/-- Witness for C6: the concrete round trip restores SOLO's content. -/
theorem mode_roundtrip_witness :
    (handleModeChange .SOLO (editF (handleModeChange .CONVERSATION sSolo))).transcript
      = "left text" ∧
    (handleModeChange .SOLO (editF (handleModeChange .CONVERSATION sSolo))).translation
      = "left translation" := by
  obtain ⟨-, -, -, -, -, -, -, -, h9, -, h11, -⟩ :=
    mode_roundtrip sSolo editF rfl rfl rfl rfl rfl
  exact ⟨h9, h11⟩

/-- The reachable state in which the host's turn is active, for C7. -/
def liveHostState : AppState := startRecording .host initialState

/-- C7 counterexample: from the reachable state with the host session active,
a mode switch to CONVERSATION is a permitted step and takes effect
immediately — it is neither rejected nor queued. -/
theorem modeSwitch_midTurn_cex :
    Reachable env0 liveHostState ∧
    sessionActive liveHostState .host ∧
    (handleModeChange .CONVERSATION liveHostState).mode = .CONVERSATION ∧
    (handleModeChange .CONVERSATION liveHostState).activeSpeaker = some .host ∧
    AppStep env0 liveHostState (handleModeChange .CONVERSATION liveHostState) := by
  refine ⟨Relation.ReflTransGen.single (AppStep.hostStart initialState rfl rfl),
    rfl, ?_, ?_, AppStep.modeChange _ _⟩
  · decide
  · decide

/-- C7 amended: `handleModeChange` performs no active-speaker check, so a
switch to any different mode takes effect immediately — also while a turn
session is active — and carries the active speaker flag across unchanged. -/
theorem modeSwitch_midTurn_amended (s : AppState) (m : TranslationMode) (hm : ¬m = s.mode) :
    (handleModeChange m s).mode = m ∧
    (handleModeChange m s).activeSpeaker = s.activeSpeaker := by
  unfold handleModeChange
  rw [if_neg hm]
  split_ifs <;> exact ⟨rfl, rfl⟩

/-- Witness for C7's amended statement: switching to CONVERSATION while the
guest is live takes effect and keeps the guest marked active. -/
theorem modeSwitch_midTurn_amended_witness :
    (handleModeChange .CONVERSATION (startRecording .guest initialState)).mode
      = .CONVERSATION ∧
    (handleModeChange .CONVERSATION (startRecording .guest initialState)).activeSpeaker
      = some .guest :=
  modeSwitch_midTurn_amended (startRecording .guest initialState) .CONVERSATION (by decide)

/-- C8 (the race the spec flags): with the fixed 100 ms delay instead of a
completion barrier, the schedule in which a still-in-flight fragment is
delivered after the timer fires is possible; there the fragment mutates the
transcript after the final read, and the finalized text disagrees with the
accumulator. -/
theorem stop_fixedDelay_race :
    runStop ⟨"Hello", none⟩ [.delayElapses, .fragmentArrives " there"] =
      ⟨"Hello there", some "Hello"⟩ ∧
    (runStop ⟨"Hello", none⟩ [.delayElapses, .fragmentArrives " there"]).finalText ≠
      some (trimS (runStop ⟨"Hello", none⟩
        [.delayElapses, .fragmentArrives " there"]).transcriptRef) := by
  constructor
  · decide
  · decide

/-- C9: decoding the transport-safe base64 text of any byte array recovers
the bytes exactly. -/
theorem decode_encode (bytes : List Nat) (h : ∀ x ∈ bytes, x < 256) :
    decode (encode bytes) = bytes := by
  unfold encode decode
  rw [map_mod_eq_self 65536 bytes
      (fun x hx => lt_of_lt_of_le (h x hx) (by norm_num)),
    atob_btoa bytes h]
  exact map_mod_eq_self 256 bytes h

/-- Witness for C9: a concrete byte array of all three tail lengths. -/
theorem decode_encode_witness :
    decode (encode [0, 127, 255, 16]) = [0, 127, 255, 16] :=
  decode_encode [0, 127, 255, 16] (by decide)

/-- C10: `translateText` never yields an empty or whitespace-padded string:
it returns the service's response text trimmed, and falls back to the fixed
"Translation unavailable." when the response is absent or trims to empty. -/
theorem translateText_spec (resp : Option String) :
    translateText resp ≠ "" ∧
    trimS (translateText resp) = translateText resp ∧
    (∀ t, resp = some t → trimS t ≠ "" → translateText resp = trimS t) ∧
    (∀ t, resp = some t → trimS t = "" → translateText resp = "Translation unavailable.") ∧
    (resp = none → translateText resp = "Translation unavailable.") := by
  cases resp with
  | none =>
      refine ⟨by decide, by decide, ?_, ?_, fun _ => rfl⟩
      · intro t ht
        exact absurd ht (by simp)
      · intro t ht
        exact absurd ht (by simp)
  | some t =>
      by_cases htr : trimS t = ""
      · refine ⟨?_, ?_, ?_, ?_, ?_⟩
        · simp [translateText, htr]
        · simp [translateText, htr]
          decide
        · intro t' ht' hne
          obtain rfl : t = t' := by injection ht'
          exact absurd htr hne
        · intro t' ht' _
          simp [translateText, htr]
        · intro hn
          exact absurd hn (by simp)
      · refine ⟨?_, ?_, ?_, ?_, ?_⟩
        · simp only [translateText, if_neg htr]
          exact htr
        · simp [translateText, htr]
          exact trimS_idem t
        · intro t' ht' _
          obtain rfl : t = t' := by injection ht'
          simp [translateText, htr]
        · intro t' ht' htr'
          obtain rfl : t = t' := by injection ht'
          exact absurd htr' htr
        · intro hn
          exact absurd hn (by simp)

/-- Witness for C10: a padded response trims to its core text. -/
theorem translateText_spec_witness :
    translateText (some "  x  ") ≠ "" ∧
    trimS (translateText (some "  x  ")) = translateText (some "  x  ") ∧
    translateText (some "  x  ") = trimS "  x  " := by
  obtain ⟨h1, h2, h3, -, -⟩ := translateText_spec (some "  x  ")
  exact ⟨h1, h2, h3 "  x  " rfl (by decide)⟩

end AITranslator
